import Mathlib

/-!
Verification of the time-tracking core of `src/streamlit_employee_tracker_final.py`.

The embedding models:
- the duration utilities `format_duration`, `time_str_to_minutes`;
- the status evaluator `evaluate_status` and the overtime calculator
  `calculate_overtime` (Python `round(x, 2)` is modelled as exact rational
  half-to-even rounding, floats are idealised as rationals);
- the record mutations performed by `render_time_tracking_controls`
  (Start Break / End Break buttons) and `handle_logout`, with the spreadsheet
  row modelled as an `EmployeeRecord` and each `sheet.update_cell` call as a
  functional field update.  The store itself is assumed reliable (each cell
  update succeeds), matching section 5 of the specification.

Timestamps are stored in the sheet as `%Y-%m-%d %H:%M:%S` strings.  A stored
timestamp string is modelled by `TsStr`: constructor `ok t` is a well-formed
string denoting the instant `t` (in seconds), `bad` is any string that
`datetime.strptime` rejects.  `datetime.datetime.now()` is the rational
argument `now` threaded into each operation.
-/

namespace EmployeeTracker

/-! ### Decimal digit rendering and parsing -/

/-- Decimal digit character (only applied to values below ten). -/
def digitChar (n : Nat) : Char :=
  match n with
  | 0 => '0' | 1 => '1' | 2 => '2' | 3 => '3' | 4 => '4'
  | 5 => '5' | 6 => '6' | 7 => '7' | 8 => '8' | _ => '9'

/-- Fuelled most-significant-first decimal rendering of a natural number. -/
def digitsAux : Nat → Nat → List Char
  | 0, _ => []
  | f + 1, n =>
    if n < 10 then [digitChar n] else digitsAux f (n / 10) ++ [digitChar (n % 10)]

/-- Decimal digits of a natural number, most significant first. -/
def natDigits (n : Nat) : List Char := digitsAux (n + 1) n

def charIsDigit (c : Char) : Bool := decide ('0' ≤ c ∧ c ≤ '9')

def allDigits (l : List Char) : Bool := l.all charIsDigit

def charVal (c : Char) : Nat := c.toNat - 48

/-- Value of a most-significant-first digit list. -/
def digitsVal (l : List Char) : Nat := l.foldl (fun a c => 10 * a + charVal c) 0

/-- Zero padding to width two, the embedding of the Python format spec `02`. -/
def pad2 (l : List Char) : List Char := if l.length < 2 then '0' :: l else l

/-- Whitespace stripped by Python `int` before parsing. -/
def isPyWs (c : Char) : Bool :=
  c == ' ' || c == '\t' || c == '\n' || c == '\r' || c == '\x0b' || c == '\x0c'

def stripSpaces (l : List Char) : List Char :=
  ((l.dropWhile isPyWs).reverse.dropWhile isPyWs).reverse

/-- Embedding of Python `str.split(sep)` on character lists. -/
def pySplitChar (sep : Char) : List Char → List (List Char)
  | [] => [[]]
  | c :: cs =>
    if c = sep then [] :: pySplitChar sep cs
    else
      match pySplitChar sep cs with
      | [] => [[c]]
      | g :: gs => (c :: g) :: gs

/-- Embedding of Python `int(s)`: optional surrounding whitespace, optional
sign, then a nonempty run of decimal digits; anything else raises
`ValueError`, modelled as `none`.  (The underscore digit separators Python
also tolerates are not modelled; no caller produces them.) -/
def pyIntOfChars (l0 : List Char) : Option Int :=
  match stripSpaces l0 with
  | [] => none
  | c :: rest =>
    if c = '-' then
      if rest ≠ [] ∧ allDigits rest then some (-(digitsVal rest : Int)) else none
    else if c = '+' then
      if rest ≠ [] ∧ allDigits rest then some ((digitsVal rest : Int)) else none
    else
      if allDigits (c :: rest) then some ((digitsVal (c :: rest) : Int)) else none

/-! ### Constants and enumeration values (source lines 28-43) -/

def STANDARD_WORK_HOURS : Int := 8 * 60

def MAX_BREAK_MINUTES : Int := 50

namespace EmployeeStatus

def ACTIVE : String := "Active"

def ON_BREAK : String := "On Break"

def COMPLETED : String := "Completed"

def INCOMPLETE : String := "Incomplete"

def OVER_BREAK : String := "Over Break"

end EmployeeStatus

/-! ### Duration utilities (source lines 303-340) -/

/-- Rendering of an integer under the Python format spec `02`: zero padding
to total width two, sign included in the width. -/
def pyFmt02Int (n : Int) : List Char :=
  if n < 0 then '-' :: natDigits n.natAbs else pad2 (natDigits n.natAbs)

/-- Embedding of `format_duration` (source lines 303-310).
`hrs = int(minutes // 60)` is the floor of `minutes / 60`;
`mins = int(minutes % 60)` equals `minutes - 60 * (minutes // 60)`, which
lies in `[0, 60)`, so the `int` truncation coincides with the floor.
The `try` block can only raise for a non-numeric argument, handled by
`format_duration_py` below. -/
def format_duration (minutes : ℚ) : String :=
  let hrs : Int := ⌊minutes / 60⌋
  let mins : Int := ⌊minutes - 60 * (hrs : ℚ)⌋
  String.mk (pyFmt02Int hrs ++ ':' :: pyFmt02Int mins)

/-- A Python argument that is either a number or a value on which the
arithmetic of `format_duration` raises `TypeError`. -/
inductive PyVal where
  | num (q : ℚ)
  | nonNum

/-- `format_duration` including its `except (TypeError, ValueError)` branch. -/
def format_duration_py : PyVal → String
  | .num q => format_duration q
  | .nonNum => "00:00"

/-- Embedding of `time_str_to_minutes` (source lines 312-320) on the
character list of the argument: empty string yields 0; otherwise split on
`:` and require exactly two `int`-parsable parts, any failure yields 0. -/
def time_str_to_minutes_chars (l : List Char) : Int :=
  if l = [] then 0
  else
    match pySplitChar ':' l with
    | [a, b] =>
      match pyIntOfChars a, pyIntOfChars b with
      | some h, some m => h * 60 + m
      | _, _ => 0
    | _ => 0

def time_str_to_minutes (s : String) : Int := time_str_to_minutes_chars s.data

/-- Embedding of `evaluate_status` (source lines 322-331). -/
def evaluate_status (break_duration work_duration : String) : String :=
  let break_min := time_str_to_minutes break_duration
  let work_min := time_str_to_minutes work_duration
  if STANDARD_WORK_HOURS ≤ work_min ∧ break_min ≤ MAX_BREAK_MINUTES then
    EmployeeStatus.COMPLETED
  else if MAX_BREAK_MINUTES < break_min then
    EmployeeStatus.OVER_BREAK
  else
    EmployeeStatus.INCOMPLETE

/-- Python `round` to an integer: half rounds to the even neighbour. -/
def roundHalfEven (q : ℚ) : Int :=
  let f := ⌊q⌋
  if q - f < 1 / 2 then f
  else if (1 : ℚ) / 2 < q - f then f + 1
  else if f % 2 = 0 then f else f + 1

/-- Python `round(x, 2)` idealised over the rationals. -/
def pyRound2 (q : ℚ) : ℚ := (roundHalfEven (q * 100) : ℚ) / 100

/-- Embedding of `calculate_overtime` (source lines 333-340); timestamps are
instants in seconds, `total_seconds() / 60` becomes division by 60. -/
def calculate_overtime (login_time logout_time : ℚ) (break_mins : ℚ) : ℚ :=
  let total_mins := (logout_time - login_time) / 60
  let worked_mins := total_mins - break_mins
  let overtime := max 0 (worked_mins - (STANDARD_WORK_HOURS : ℚ))
  pyRound2 (overtime / 60)

/-! ### Attendance record model (source lines 48-58 and 438-455)

Sheet columns 2-9 of a `Daily Logs` row become the optional fields below;
an absent or empty cell (both falsy in the Python truthiness tests) is
`none`. -/

/-- A stored timestamp string: `ok t` is a well-formed
`%Y-%m-%d %H:%M:%S` string denoting the instant `t` in seconds, `bad` is a
nonempty string rejected by `datetime.strptime`. -/
inductive TsStr where
  | ok (t : ℚ)
  | bad
deriving DecidableEq

/-- Embedding of `datetime.strptime(s, "%Y-%m-%d %H:%M:%S")`: `none` means
the call raises `ValueError`. -/
def strptime : TsStr → Option ℚ
  | .ok t => some t
  | .bad => none

structure EmployeeRecord where
  name : String
  login_time : Option TsStr := none
  logout_time : Option TsStr := none
  break_start : Option TsStr := none
  break_end : Option TsStr := none
  break_duration : Option String := none
  work_time : Option String := none
  status : Option String := none
  overtime : Option String := none
deriving DecidableEq

/-- Outcome of one button press: `success` ends in `st.rerun`, `rejected`
is an `st.error` or `st.warning` taken before any cell write on a business
rule, `errored` is an exception caught by a `try`/`except` block. -/
inductive Outcome where
  | success
  | rejected (msg : String)
  | errored
deriving DecidableEq

/-- Idealised `repr` of the float `round(x, 2)` produces, as interpolated
into the overtime cell: integer part, then one or two fractional digits
with a trailing zero dropped (`0.0`, `1.5`, `2.25`). -/
def decimalRepr2 (q : ℚ) : String :=
  let n : Int := ⌊q * 100⌋
  let m := n.natAbs
  let ip := m / 100
  let fp := m % 100
  let frac :=
    if fp % 10 = 0 then [digitChar (fp / 10)]
    else [digitChar (fp / 10), digitChar (fp % 10)]
  String.mk ((if n < 0 then '-' :: natDigits ip else natDigits ip) ++ '.' :: frac)

/-! ### State-machine operations (source lines 1084-1193)

Each `sheet.update_cell(row, col, v)` is a field update; the writes happen
one at a time in source order, so a branch that raises after some writes
returns the partially updated record. -/

/-- Start Break button (source lines 1090-1102): reject while a break is
open, reject when a break was already taken today, otherwise write
`break_start` (column 4) with the current time. -/
def render_start_break (employee : EmployeeRecord) (now : ℚ) :
    Outcome × EmployeeRecord :=
  if employee.break_start.isSome ∧ employee.break_end = none then
    (.rejected "Break already in progress!", employee)
  else if employee.break_start.isSome ∧ employee.break_end.isSome then
    (.rejected "You've already taken a break today.", employee)
  else
    (.success, { employee with break_start := some (.ok now) })

/-- End Break button (source lines 1104-1129): reject unless a break is
open; parse `break_start` (an unparseable value raises before any write),
then write `break_end` (column 5) and `break_duration` (column 6). -/
def render_end_break (employee : EmployeeRecord) (now : ℚ) :
    Outcome × EmployeeRecord :=
  match employee.break_start, employee.break_end with
  | some bsTs, none =>
    (match strptime bsTs with
     | none => (.errored, employee)
     | some bs =>
       let duration := (now - bs) / 60
       (.success, { employee with
                      break_end := some (.ok now),
                      break_duration := some (format_duration duration) }))
  | _, _ => (.rejected "No active break to end!", employee)

/-- Derived-field block at the end of `handle_logout` (source lines
1172-1185): write `work_time` (column 7), `status` (column 8) and the
overtime cell (column 9). -/
def finishLogout (r : EmployeeRecord) (login_time now break_mins : ℚ) :
    EmployeeRecord :=
  let total_mins := (now - login_time) / 60 - break_mins
  let total_str := format_duration total_mins
  { r with
      work_time := some total_str,
      status := some (evaluate_status (format_duration break_mins) total_str),
      overtime := some (decimalRepr2 (calculate_overtime login_time now break_mins)
                          ++ " hours") }

/-- Embedding of `handle_logout` (source lines 1139-1193).  Source order:
reject when `login_time` is unset; parse it (a parse failure raises before
any write); reject when `now` precedes the login instant; write
`logout_time` (column 3); if `break_start` is set, auto-close an open break
by writing `break_end` (column 5) with `now`, parse the break endpoints
(a parse failure raises here, after the earlier writes), write
`break_duration` (column 6); finally write the three derived fields. -/
def handle_logout (employee : EmployeeRecord) (now : ℚ) :
    Outcome × EmployeeRecord :=
  match employee.login_time with
  | none => (.rejected "No login time recorded", employee)
  | some lts =>
    match strptime lts with
    | none => (.errored, employee)
    | some login_time =>
      if now < login_time then
        (.rejected "Logout time cannot be before login time", employee)
      else
        let r1 := { employee with logout_time := some (.ok now) }
        match employee.break_start with
        | none => (.success, finishLogout r1 login_time now 0)
        | some bsTs =>
          match employee.break_end with
          | none =>
            let r2 := { r1 with break_end := some (.ok now) }
            (match strptime bsTs with
             | none => (.errored, r2)
             | some bs =>
               let break_mins := (now - bs) / 60
               (.success,
                finishLogout
                  { r2 with break_duration := some (format_duration break_mins) }
                  login_time now break_mins))
          | some beTs =>
            match strptime beTs, strptime bsTs with
            | some be, some bs =>
              let break_mins := (be - bs) / 60
              (.success,
               finishLogout
                 { r1 with break_duration := some (format_duration break_mins) }
                 login_time now break_mins)
            | _, _ => (.errored, r1)

/-- Record effect of `handle_login` (source lines 543-556): when a row for
the user already exists today it is left untouched (re-login is an
idempotent no-op on the record); otherwise, for a non-admin user, a fresh
row is appended holding only the name and the login time. -/
def handle_login_record (existing : Option EmployeeRecord) (username : String)
    (now : ℚ) : Option EmployeeRecord :=
  match existing with
  | some r => some r
  | none =>
    if username = "admin" then none
    else some { name := username, login_time := some (.ok now) }

/-- Break-duration display fallback (source line 1060):
`employee.break_duration or "00:00"`. -/
def displayed_break_duration (employee : EmployeeRecord) : String :=
  (employee.break_duration).getD "00:00"

/-! ### Lemmas about digit rendering and parsing -/

theorem digitsAux_fuel (f1 : Nat) : ∀ (f2 n : Nat), n < f1 → n < f2 →
    digitsAux f1 n = digitsAux f2 n := by
  induction f1 with
  | zero => intro f2 n h1 _; omega
  | succ g ih =>
    intro f2 n h1 h2
    cases f2 with
    | zero => omega
    | succ h =>
      by_cases hn : n < 10
      · simp [digitsAux, hn]
      · have hpos : 0 < n := by omega
        have hdiv : n / 10 < n := Nat.div_lt_self hpos (by norm_num)
        simp only [digitsAux, if_neg hn]
        rw [ih (h) (n / 10) (by omega) (by omega)]

theorem digitsAux_eq_natDigits (f n : Nat) (h : n < f) :
    digitsAux f n = natDigits n :=
  digitsAux_fuel f (n + 1) n h (Nat.lt_succ_self n)

theorem charVal_digitChar (n : Nat) (h : n < 10) : charVal (digitChar n) = n := by
  interval_cases n <;> decide

theorem charIsDigit_digitChar (n : Nat) (h : n < 10) :
    charIsDigit (digitChar n) = true := by
  interval_cases n <;> decide

theorem digitsVal_append_single (l : List Char) (c : Char) :
    digitsVal (l ++ [c]) = 10 * digitsVal l + charVal c := by
  simp [digitsVal, List.foldl_append]

theorem natDigits_spec (n : Nat) :
    allDigits (natDigits n) = true ∧ digitsVal (natDigits n) = n ∧
      natDigits n ≠ [] := by
  induction n using Nat.strong_induction_on with
  | _ n ih =>
    by_cases hn : n < 10
    · unfold natDigits digitsAux
      rw [if_pos hn]
      refine ⟨?_, ?_, by simp⟩
      · simp [allDigits, charIsDigit_digitChar n hn]
      · simp [digitsVal, charVal_digitChar n hn]
    · have hpos : 0 < n := by omega
      have hdiv : n / 10 < n := Nat.div_lt_self hpos (by norm_num)
      obtain ⟨ha, hv, hne⟩ := ih (n / 10) hdiv
      have hunf : natDigits n = natDigits (n / 10) ++ [digitChar (n % 10)] := by
        conv_lhs => rw [natDigits]
        simp only [digitsAux, if_neg hn]
        rw [digitsAux_eq_natDigits n (n / 10) hdiv]
      rw [hunf]
      refine ⟨?_, ?_, by simp⟩
      · simp only [allDigits, List.all_append] at ha ⊢
        simp [ha, charIsDigit_digitChar (n % 10) (Nat.mod_lt n (by norm_num))]
      · rw [digitsVal_append_single, hv,
          charVal_digitChar (n % 10) (Nat.mod_lt n (by norm_num))]
        omega

theorem digitsVal_pad2 (l : List Char) : digitsVal (pad2 l) = digitsVal l := by
  unfold pad2
  split
  · show List.foldl (fun a c => 10 * a + charVal c) (10 * 0 + charVal '0') l =
      List.foldl (fun a c => 10 * a + charVal c) 0 l
    congr 1
  · rfl

theorem allDigits_pad2 (l : List Char) : allDigits (pad2 l) = allDigits l := by
  have h0 : charIsDigit '0' = true := by decide
  unfold pad2
  split
  · simp [allDigits, List.all_cons, h0]
  · rfl

theorem pad2_ne_nil (l : List Char) : pad2 l ≠ [] := by
  unfold pad2
  split
  · simp
  · rintro rfl
    simp at *

theorem charIsDigit_props (c : Char) (h : charIsDigit c = true) :
    isPyWs c = false ∧ c ≠ ':' ∧ c ≠ '-' ∧ c ≠ '+' := by
  refine ⟨?_, ?_, ?_, ?_⟩
  · simp only [isPyWs, Bool.or_eq_false_iff, beq_eq_false_iff_ne]
    refine ⟨⟨⟨⟨⟨?_, ?_⟩, ?_⟩, ?_⟩, ?_⟩, ?_⟩ <;>
      (intro hc; subst hc; exact absurd h (by decide))
  · intro hc; subst hc; exact absurd h (by decide)
  · intro hc; subst hc; exact absurd h (by decide)
  · intro hc; subst hc; exact absurd h (by decide)

theorem stripSpaces_of_digits (l : List Char) (ha : allDigits l = true)
    (hne : l ≠ []) : stripSpaces l = l := by
  have hall : ∀ c ∈ l, charIsDigit c = true := by
    simpa [allDigits, List.all_eq_true] using ha
  have h1 : l.dropWhile isPyWs = l := by
    cases l with
    | nil => rfl
    | cons c cs =>
      have := (charIsDigit_props c (hall c (by simp))).1
      simp [List.dropWhile, this]
  have h2 : l.reverse.dropWhile isPyWs = l.reverse := by
    cases hrev : l.reverse with
    | nil => rfl
    | cons c cs =>
      have hc : c ∈ l := by
        rw [← List.mem_reverse, hrev]
        simp
      have := (charIsDigit_props c (hall c hc)).1
      simp [List.dropWhile, this]
  rw [stripSpaces, h1, h2, List.reverse_reverse]

theorem pySplitChar_no_sep (sep : Char) (l : List Char)
    (h : ∀ c ∈ l, c ≠ sep) : pySplitChar sep l = [l] := by
  induction l with
  | nil => rfl
  | cons c cs ih =>
    have hc : c ≠ sep := h c (by simp)
    have ihcs : pySplitChar sep cs = [cs] := ih (fun d hd => h d (by simp [hd]))
    simp [pySplitChar, hc, ihcs]

theorem pySplitChar_append (sep : Char) (l r : List Char)
    (h : ∀ c ∈ l, c ≠ sep) :
    pySplitChar sep (l ++ sep :: r) = l :: pySplitChar sep r := by
  induction l with
  | nil => simp [pySplitChar]
  | cons c cs ih =>
    have hc : c ≠ sep := h c (by simp)
    have ihcs := ih (fun d hd => h d (by simp [hd]))
    simp [pySplitChar, hc, ihcs]

theorem pySplitChar_ne_nil (sep : Char) (l : List Char) :
    pySplitChar sep l ≠ [] := by
  cases l with
  | nil => simp [pySplitChar]
  | cons c cs =>
    by_cases hc : c = sep
    · simp [pySplitChar, hc]
    · simp only [pySplitChar, if_neg hc]
      rcases hps : pySplitChar sep cs with _ | ⟨g, gs⟩ <;> simp

theorem pyIntOfChars_digits (l : List Char) (ha : allDigits l = true)
    (hne : l ≠ []) : pyIntOfChars l = some ((digitsVal l : Nat) : Int) := by
  rcases l with _ | ⟨c, rest⟩
  · exact absurd rfl hne
  · have hc : charIsDigit c = true := by
      have := ha
      simp [allDigits, List.all_cons] at this
      exact this.1
    obtain ⟨-, -, hminus, hplus⟩ := charIsDigit_props c hc
    rw [pyIntOfChars, stripSpaces_of_digits _ ha hne]
    simp [hminus, hplus, ha]

theorem pyIntOfChars_pad_natDigits (n : Nat) :
    pyIntOfChars (pad2 (natDigits n)) = some ((n : Nat) : Int) := by
  obtain ⟨ha, hv, -⟩ := natDigits_spec n
  rw [pyIntOfChars_digits (pad2 (natDigits n))
      (by rw [allDigits_pad2]; exact ha) (pad2_ne_nil _),
    digitsVal_pad2, hv]

/-- The well-formed `HH:MM` display of `h` hours and `m` minutes, the shape
`format_duration` produces for nonnegative input. -/
def mkDisplay (h m : Nat) : String :=
  String.mk (pad2 (natDigits h) ++ ':' :: pad2 (natDigits m))

theorem no_colon_of_digits (l : List Char) (ha : allDigits l = true) :
    ∀ c ∈ l, c ≠ ':' := by
  intro c hc
  have hall : ∀ d ∈ l, charIsDigit d = true := by
    simpa [allDigits, List.all_eq_true] using ha
  exact (charIsDigit_props c (hall c hc)).2.1

theorem time_str_to_minutes_mkDisplay (h m : Nat) :
    time_str_to_minutes (mkDisplay h m) = (h : Int) * 60 + m := by
  have hah : allDigits (pad2 (natDigits h)) = true := by
    rw [allDigits_pad2]; exact (natDigits_spec h).1
  have ham : allDigits (pad2 (natDigits m)) = true := by
    rw [allDigits_pad2]; exact (natDigits_spec m).1
  have hsplit : pySplitChar ':' (pad2 (natDigits h) ++ ':' :: pad2 (natDigits m)) =
      [pad2 (natDigits h), pad2 (natDigits m)] := by
    rw [pySplitChar_append ':' _ _ (no_colon_of_digits _ hah),
      pySplitChar_no_sep ':' _ (no_colon_of_digits _ ham)]
  have hne : pad2 (natDigits h) ++ ':' :: pad2 (natDigits m) ≠ [] := by simp
  rw [time_str_to_minutes]
  show time_str_to_minutes_chars (pad2 (natDigits h) ++ ':' :: pad2 (natDigits m)) = _
  rw [time_str_to_minutes_chars, if_neg hne, hsplit]
  simp only [pyIntOfChars_pad_natDigits]

/-! ### Lemmas about `format_duration` -/

theorem pyFmt02Int_ofNat (n : Nat) :
    pyFmt02Int ((n : Nat) : Int) = pad2 (natDigits n) := by
  rw [pyFmt02Int, if_neg (by omega), Int.natAbs_ofNat]

theorem floor_mul_add_div (h m : Nat) (hm : m < 60) :
    ⌊(((h : ℚ) * 60 + m)) / 60⌋ = (h : Int) := by
  rw [Int.floor_eq_iff]
  constructor
  · rw [le_div_iff₀ (by norm_num)]
    push_cast
    linarith
  · rw [div_lt_iff₀ (by norm_num)]
    push_cast
    have : (m : ℚ) < 60 := by exact_mod_cast hm
    linarith

theorem format_duration_mkDisplay (h m : Nat) (hm : m < 60) :
    format_duration ((h : ℚ) * 60 + m) = mkDisplay h m := by
  rw [format_duration]
  have hfl : ⌊(((h : ℚ) * 60 + m)) / 60⌋ = (h : Int) := floor_mul_add_div h m hm
  rw [hfl]
  have hmins : ((h : ℚ) * 60 + m - 60 * ((h : Int) : ℚ)) = (m : ℚ) := by
    push_cast
    ring
  rw [hmins, Int.floor_natCast]
  rw [pyFmt02Int_ofNat, pyFmt02Int_ofNat]
  rfl

/-- Nonnegative minute counts yield a well-formed zero-padded display with
minute part below 60. -/
theorem format_duration_shape (q : ℚ) (hq : 0 ≤ q) :
    ∃ H M : Nat, M < 60 ∧ format_duration q = mkDisplay H M := by
  set hrs : Int := ⌊q / 60⌋ with hhrs
  have hhr0 : 0 ≤ hrs := Int.floor_nonneg.mpr (by positivity)
  set rest : ℚ := q - 60 * (hrs : ℚ) with hrest
  have hr0 : 0 ≤ rest := by
    have : (hrs : ℚ) ≤ q / 60 := Int.floor_le _
    rw [hrest]
    nlinarith
  have hr60 : rest < 60 := by
    have : q / 60 < hrs + 1 := Int.lt_floor_add_one _
    rw [hrest]
    nlinarith
  set mins : Int := ⌊rest⌋ with hmins
  have hm0 : 0 ≤ mins := Int.floor_nonneg.mpr hr0
  have hm60 : mins < 60 := by
    rw [hmins]
    exact Int.floor_lt.mpr (by exact_mod_cast hr60)
  refine ⟨hrs.natAbs, mins.natAbs, by omega, ?_⟩
  rw [format_duration, mkDisplay]
  have h1 : pyFmt02Int hrs = pad2 (natDigits hrs.natAbs) := by
    rw [pyFmt02Int, if_neg (by omega)]
  have h2 : pyFmt02Int mins = pad2 (natDigits mins.natAbs) := by
    rw [pyFmt02Int, if_neg (by omega)]
  rw [← hhrs, ← hrest, ← hmins, h1, h2]

/-! ### Lemmas about rounding -/

theorem roundHalfEven_nonneg (q : ℚ) (hq : 0 ≤ q) : 0 ≤ roundHalfEven q := by
  have hf : 0 ≤ ⌊q⌋ := Int.floor_nonneg.mpr hq
  rw [roundHalfEven]
  split
  · exact hf
  · split
    · omega
    · split <;> omega

theorem pyRound2_nonneg (q : ℚ) (hq : 0 ≤ q) : 0 ≤ pyRound2 q := by
  have h : 0 ≤ roundHalfEven (q * 100) :=
    roundHalfEven_nonneg _ (by positivity)
  rw [pyRound2]
  have : (0 : ℚ) ≤ (roundHalfEven (q * 100) : ℚ) := by exact_mod_cast h
  positivity

theorem pyRound2_zero : pyRound2 0 = 0 := by
  norm_num [pyRound2, roundHalfEven]

/-! ### Claim theorems -/

/-- Claim C2: for every pair of display strings, `evaluate_status` converts
both to minutes and returns Completed exactly when the work minutes reach
`STANDARD_WORK_HOURS` (480 here) and the break minutes stay within
`MAX_BREAK_MINUTES` (50); otherwise it returns Over Break exactly when the
break minutes exceed 50 (so a long break day with enough work is Over
Break, not Completed); all remaining cases are Incomplete. -/
theorem evaluate_status_characterization (b w : String) :
    STANDARD_WORK_HOURS = 480 ∧ MAX_BREAK_MINUTES = 50 ∧
    (evaluate_status b w = EmployeeStatus.COMPLETED ↔
      STANDARD_WORK_HOURS ≤ time_str_to_minutes w ∧
        time_str_to_minutes b ≤ MAX_BREAK_MINUTES) ∧
    (evaluate_status b w = EmployeeStatus.OVER_BREAK ↔
      ¬(STANDARD_WORK_HOURS ≤ time_str_to_minutes w ∧
          time_str_to_minutes b ≤ MAX_BREAK_MINUTES) ∧
        MAX_BREAK_MINUTES < time_str_to_minutes b) ∧
    (evaluate_status b w = EmployeeStatus.INCOMPLETE ↔
      ¬(STANDARD_WORK_HOURS ≤ time_str_to_minutes w ∧
          time_str_to_minutes b ≤ MAX_BREAK_MINUTES) ∧
        ¬MAX_BREAK_MINUTES < time_str_to_minutes b) := by
  refine ⟨rfl, rfl, ?_⟩
  rw [evaluate_status]
  by_cases h1 : STANDARD_WORK_HOURS ≤ time_str_to_minutes w ∧
      time_str_to_minutes b ≤ MAX_BREAK_MINUTES
  · rw [if_pos h1]
    exact ⟨⟨fun _ => h1, fun _ => rfl⟩,
      ⟨fun hc => absurd hc (by decide), fun hc => absurd h1 hc.1⟩,
      ⟨fun hc => absurd hc (by decide), fun hc => absurd h1 hc.1⟩⟩
  · rw [if_neg h1]
    by_cases h2 : MAX_BREAK_MINUTES < time_str_to_minutes b
    · rw [if_pos h2]
      exact ⟨⟨fun hc => absurd hc (by decide), fun hc => absurd hc h1⟩,
        ⟨fun _ => ⟨h1, h2⟩, fun _ => rfl⟩,
        ⟨fun hc => absurd hc (by decide), fun hc => absurd h2 hc.2⟩⟩
    · rw [if_neg h2]
      exact ⟨⟨fun hc => absurd hc (by decide), fun hc => absurd hc h1⟩,
        ⟨fun hc => absurd hc (by decide), fun hc => absurd hc.2 h2⟩,
        ⟨fun _ => ⟨h1, h2⟩, fun _ => rfl⟩⟩

/-- Claim C4: for logout at or after login and a nonnegative break-minute
count, `calculate_overtime` equals `max 0 (elapsed - break - standard)`
divided by 60 and rounded to two places, is never negative, and is zero
whenever the worked minutes do not exceed the standard. -/
theorem calculate_overtime_spec (login logout break_mins : ℚ)
    (h1 : login ≤ logout) (h2 : 0 ≤ break_mins) :
    calculate_overtime login logout break_mins =
      pyRound2 (max 0 ((logout - login) / 60 - break_mins -
        (STANDARD_WORK_HOURS : ℚ)) / 60) ∧
    0 ≤ calculate_overtime login logout break_mins ∧
    ((logout - login) / 60 - break_mins ≤ (STANDARD_WORK_HOURS : ℚ) →
      calculate_overtime login logout break_mins = 0) := by
  refine ⟨rfl, ?_, ?_⟩
  · exact pyRound2_nonneg _ (div_nonneg (le_max_left _ _) (by norm_num))
  · intro h
    have hmax : max 0 ((logout - login) / 60 - break_mins -
        (STANDARD_WORK_HOURS : ℚ)) = 0 := max_eq_left (by linarith)
    show pyRound2 (max 0 ((logout - login) / 60 - break_mins -
      (STANDARD_WORK_HOURS : ℚ)) / 60) = 0
    rw [hmax]
    norm_num [pyRound2_zero]

/-- Witness for C4 at login 0, logout 9 hours later, no break. -/
theorem calculate_overtime_spec_witness :
    calculate_overtime 0 32400 0 =
      pyRound2 (max 0 ((32400 - 0) / 60 - 0 - (STANDARD_WORK_HOURS : ℚ)) / 60) ∧
    0 ≤ calculate_overtime 0 32400 0 ∧
    ((32400 - 0) / 60 - 0 ≤ (STANDARD_WORK_HOURS : ℚ) →
      calculate_overtime 0 32400 0 = 0) :=
  calculate_overtime_spec 0 32400 0 (by norm_num) (by norm_num)

/-- Claim C5 counterexample: a negative numeric input does not yield
`"00:00"`; the floor-division arithmetic renders -5 minutes as `"-1:55"`. -/
theorem format_duration_negative_not_zero :
    format_duration (-5) = "-1:55" ∧ format_duration (-5) ≠ "00:00" := by
  have h1 : ⌊(-5 : ℚ) / 60⌋ = -1 := by
    rw [Int.floor_eq_iff]
    norm_num
  have harg : (-5 : ℚ) - 60 * ((-1 : Int) : ℚ) = 55 := by
    push_cast
    ring
  have h2 : ⌊(-5 : ℚ) - 60 * ((-1 : Int) : ℚ)⌋ = 55 := by
    rw [harg, Int.floor_eq_iff]
    norm_num
  simp only [format_duration, h1, h2]
  decide

/-- Claim C5 as amended: `format_duration` is total, every nonnegative
numeric input yields a zero-padded `HH:MM` display (hours unbounded,
minute part below 60), and a non-numeric input yields `"00:00"`; a
negative numeric input instead yields the floor-division rendering shown
in the counterexample. -/
theorem format_duration_total_and_shape :
    (∀ q : ℚ, 0 ≤ q →
      ∃ H M : Nat, M < 60 ∧ format_duration_py (.num q) = mkDisplay H M) ∧
    format_duration_py .nonNum = "00:00" :=
  ⟨fun q hq => format_duration_shape q hq, rfl⟩

/-- Witness for C5 at 425 minutes. -/
theorem format_duration_total_and_shape_witness :
    ∃ H M : Nat, M < 60 ∧ format_duration_py (.num 425) = mkDisplay H M :=
  format_duration_total_and_shape.1 425 (by norm_num)

/-- A well-formed `HH:MM` display string: zero-padded hours of two or more
digits, zero-padded two-digit minutes below 60. -/
def wellFormedDisplay (s : String) : Prop :=
  ∃ h m : Nat, m < 60 ∧ s = mkDisplay h m

/-- An input on which `time_str_to_minutes` reaches the arithmetic branch:
splitting on `:` yields exactly two parts and both parse as `int`. -/
def wellParsed (s : String) : Prop :=
  ∃ a b : List Char, pySplitChar ':' s.data = [a, b] ∧
    (pyIntOfChars a).isSome ∧ (pyIntOfChars b).isSome

/-- Claim C6: on every well-formed `HH:MM` display string the composite
`format_duration` after `time_str_to_minutes` is the identity, and
`time_str_to_minutes` returns 0 on empty or malformed input. -/
theorem display_round_trip :
    (∀ s : String, wellFormedDisplay s →
      format_duration ((time_str_to_minutes s : Int) : ℚ) = s) ∧
    time_str_to_minutes "" = 0 ∧
    (∀ s : String, ¬wellParsed s → time_str_to_minutes s = 0) := by
  refine ⟨?_, rfl, ?_⟩
  · rintro s ⟨h, m, hm, rfl⟩
    rw [time_str_to_minutes_mkDisplay h m]
    have hc : (((h : Int) * 60 + (m : Int) : Int) : ℚ) = (h : ℚ) * 60 + m := by
      push_cast
      ring
    rw [hc, format_duration_mkDisplay h m hm]
  · intro s hnp
    by_cases hl : s.data = []
    · rw [time_str_to_minutes, time_str_to_minutes_chars, if_pos hl]
    · rcases hsp : pySplitChar ':' s.data with _ | ⟨a, rest⟩
      · exact absurd hsp (pySplitChar_ne_nil ':' s.data)
      · rcases rest with _ | ⟨b, rest2⟩
        · simp [time_str_to_minutes, time_str_to_minutes_chars, hl, hsp]
        · rcases rest2 with _ | ⟨c, rest3⟩
          · rcases hpa : pyIntOfChars a with _ | va
            · simp [time_str_to_minutes, time_str_to_minutes_chars, hl, hsp, hpa]
            · rcases hpb : pyIntOfChars b with _ | vb
              · simp [time_str_to_minutes, time_str_to_minutes_chars, hl, hsp,
                  hpa, hpb]
              · exact absurd ⟨a, b, hsp, by simp [hpa], by simp [hpb]⟩ hnp
          · simp [time_str_to_minutes, time_str_to_minutes_chars, hl, hsp]

/-- Witness for C6 at the display string `"09:05"`. -/
theorem display_round_trip_witness :
    format_duration ((time_str_to_minutes "09:05" : Int) : ℚ) = "09:05" :=
  display_round_trip.1 "09:05" ⟨9, 5, by norm_num, by decide⟩

/-- Claim C7: Start Break on a record with an open break (break_start set,
break_end unset) is rejected with the already-on-break message and the
record is returned unchanged, with no field written. -/
theorem start_break_rejected_when_break_open (r : EmployeeRecord) (now : ℚ)
    (h1 : r.break_start.isSome = true) (h2 : r.break_end = none) :
    render_start_break r now = (.rejected "Break already in progress!", r) := by
  rw [render_start_break, if_pos ⟨h1, h2⟩]

/-- A record with a break currently open, shared by several witnesses. -/
def onBreakRec : EmployeeRecord :=
  { name := "w", login_time := some (.ok 0), break_start := some (.ok 600) }

/-- Witness for C7. -/
theorem start_break_rejected_when_break_open_witness :
    render_start_break onBreakRec 1200 =
      (.rejected "Break already in progress!", onBreakRec) :=
  start_break_rejected_when_break_open onBreakRec 1200 rfl rfl

/-- Claim C10: Start Break on a record whose break_start and break_end are
both already set is rejected with the break-already-taken message and the
record is returned unchanged, so a second break can never start. -/
theorem start_break_rejected_when_break_taken (r : EmployeeRecord) (now : ℚ)
    (h1 : r.break_start.isSome = true) (h2 : r.break_end.isSome = true) :
    render_start_break r now =
      (.rejected "You've already taken a break today.", r) := by
  have hne : ¬(r.break_start.isSome ∧ r.break_end = none) := by
    rintro ⟨-, he⟩
    rw [he] at h2
    exact absurd h2 (by simp)
  rw [render_start_break, if_neg hne, if_pos ⟨h1, h2⟩]

/-- A record whose single break is already closed. -/
def breakDoneRec : EmployeeRecord :=
  { name := "w", login_time := some (.ok 0), break_start := some (.ok 600),
    break_end := some (.ok 1500) }

/-- Witness for C10. -/
theorem start_break_rejected_when_break_taken_witness :
    render_start_break breakDoneRec 1800 =
      (.rejected "You've already taken a break today.", breakDoneRec) :=
  start_break_rejected_when_break_taken breakDoneRec 1800 rfl rfl

/-- A record hit by clock skew: the current instant 0 precedes the stored
login instant 100, with a break open since instant 200. -/
def skewRec : EmployeeRecord :=
  { name := "e", login_time := some (.ok 100), break_start := some (.ok 200) }

/-- Claim C3 counterexample: Logout invoked on a record with login_time set
and an open break, at an instant preceding the login instant, is rejected
and does not auto-close the break, so break_end does not become the logout
timestamp. -/
theorem logout_skew_no_autoclose :
    (handle_logout skewRec 0).2.break_end = none ∧
    (handle_logout skewRec 0).1 =
      .rejected "Logout time cannot be before login time" := by
  decide

/-- Claim C3 as amended: whenever Logout is invoked on a record whose
login_time parses to an instant not after the logout instant and whose
break is open (break_start parseable, break_end unset), the break is
auto-closed at the logout timestamp: afterwards break_end equals the
logout time and break_duration is the display of the elapsed minutes from
break_start to the logout time. -/
theorem logout_autocloses_open_break (r : EmployeeRecord) (now lt bs : ℚ)
    (h1 : r.login_time = some (.ok lt)) (h2 : r.break_start = some (.ok bs))
    (h3 : r.break_end = none) (h4 : lt ≤ now) :
    (handle_logout r now).1 = .success ∧
    (handle_logout r now).2.break_end = some (.ok now) ∧
    (handle_logout r now).2.break_duration =
      some (format_duration ((now - bs) / 60)) := by
  have hlt : ¬now < lt := not_lt.mpr h4
  simp [handle_logout, h1, h2, h3, strptime, hlt, finishLogout]

/-- Witness for C3: break open since instant 600, logout at instant 1200. -/
theorem logout_autocloses_open_break_witness :
    (handle_logout onBreakRec 1200).1 = .success ∧
    (handle_logout onBreakRec 1200).2.break_end = some (.ok 1200) ∧
    (handle_logout onBreakRec 1200).2.break_duration =
      some (format_duration ((1200 - 600) / 60)) :=
  logout_autocloses_open_break onBreakRec 1200 0 600 rfl rfl rfl (by norm_num)

/-- A record externally corrupted so that its break_start string does not
parse, while a break is formally open. -/
def corruptRec : EmployeeRecord :=
  { name := "e", login_time := some (.ok 0), break_start := some .bad }

/-- Claim C1 counterexample: on a record whose break_start string is
unparseable, Logout fails partway yet does not leave the record as it was:
logout_time (and the auto-closed break_end) are already written when the
parse failure aborts the transition, a partial write. -/
theorem logout_partial_write_on_unparseable_break_start :
    (handle_logout corruptRec 60).1 ≠ .success ∧
    (handle_logout corruptRec 60).2 ≠ corruptRec ∧
    (handle_logout corruptRec 60).2.logout_time = some (.ok 60) ∧
    (handle_logout corruptRec 60).2.work_time = none := by
  decide

/-- A record all of whose stored timestamp strings parse; this holds for
every value the state machine itself writes into those cells. -/
def parseableRec (r : EmployeeRecord) : Prop :=
  r.login_time ≠ some .bad ∧ r.break_start ≠ some .bad ∧ r.break_end ≠ some .bad

/-- Claim C1 as amended: on every record whose stored timestamps parse,
each operation is atomic: whenever Login, Start Break, End Break or Logout
does not complete successfully, the record is left exactly as it was, with
no raw or derived field written; the partial write of the counterexample
needs an externally corrupted timestamp string. -/
theorem transitions_atomic_on_parseable_records (r : EmployeeRecord) (now : ℚ)
    (h : parseableRec r) :
    ((handle_logout r now).1 ≠ .success → (handle_logout r now).2 = r) ∧
    ((render_start_break r now).1 ≠ .success → (render_start_break r now).2 = r) ∧
    ((render_end_break r now).1 ≠ .success → (render_end_break r now).2 = r) ∧
    (∀ u : String, handle_login_record (some r) u now = some r) := by
  obtain ⟨hl, hbs, hbe⟩ := h
  refine ⟨?_, ?_, ?_, fun u => rfl⟩
  · rcases hlt : r.login_time with _ | lts
    · simp [handle_logout, hlt]
    · rcases lts with t | _
      · by_cases hno : now < t
        · simp [handle_logout, hlt, strptime, hno]
        · rcases hbs' : r.break_start with _ | bsts
          · simp [handle_logout, hlt, strptime, hno, hbs']
          · rcases bsts with bs | _
            · rcases hbe' : r.break_end with _ | bets
              · simp [handle_logout, hlt, strptime, hno, hbs', hbe']
              · rcases bets with be | _
                · simp [handle_logout, hlt, strptime, hno, hbs', hbe']
                · exact absurd hbe' hbe
            · exact absurd hbs' hbs
      · exact absurd hlt hl
  · rw [render_start_break]
    split_ifs <;> simp
  · rcases hbs' : r.break_start with _ | bsts
    · simp [render_end_break, hbs']
    · rcases hbe' : r.break_end with _ | bets
      · rcases bsts with bs | _
        · simp [render_end_break, hbs', hbe', strptime]
        · exact absurd hbs' hbs
      · simp [render_end_break, hbs', hbe']

/-- Witness for C1: a just-logged-in record with no break fields. -/
theorem transitions_atomic_on_parseable_records_witness :
    ((handle_logout { name := "w", login_time := some (.ok 0) } 60).1 ≠ .success →
      (handle_logout { name := "w", login_time := some (.ok 0) } 60).2 =
        { name := "w", login_time := some (.ok 0) }) ∧
    ((render_start_break { name := "w", login_time := some (.ok 0) } 60).1 ≠ .success →
      (render_start_break { name := "w", login_time := some (.ok 0) } 60).2 =
        { name := "w", login_time := some (.ok 0) }) ∧
    ((render_end_break { name := "w", login_time := some (.ok 0) } 60).1 ≠ .success →
      (render_end_break { name := "w", login_time := some (.ok 0) } 60).2 =
        { name := "w", login_time := some (.ok 0) }) ∧
    (∀ u : String,
      handle_login_record (some { name := "w", login_time := some (.ok 0) }) u 60 =
        some { name := "w", login_time := some (.ok 0) }) :=
  transitions_atomic_on_parseable_records
    { name := "w", login_time := some (.ok 0) } 60 ⟨by decide, by decide, by decide⟩

/-- The event-ordering invariant of the data model restricted to the two
session endpoints: whenever both are stored and parseable, the logout
instant is not before the login instant. -/
def ordInv (r : EmployeeRecord) : Prop :=
  ∀ lt lo : ℚ, r.login_time = some (.ok lt) → r.logout_time = some (.ok lo) →
    lt ≤ lo

theorem render_start_break_keeps_session (r : EmployeeRecord) (now : ℚ) :
    (render_start_break r now).2.login_time = r.login_time ∧
    (render_start_break r now).2.logout_time = r.logout_time := by
  rw [render_start_break]
  split_ifs <;> exact ⟨rfl, rfl⟩

theorem render_end_break_keeps_session (r : EmployeeRecord) (now : ℚ) :
    (render_end_break r now).2.login_time = r.login_time ∧
    (render_end_break r now).2.logout_time = r.logout_time := by
  rcases hbs : r.break_start with _ | bsts
  · simp [render_end_break, hbs]
  · rcases hbe : r.break_end with _ | bets
    · rcases bsts with bs | _ <;> simp [render_end_break, hbs, hbe, strptime]
    · simp [render_end_break, hbs, hbe]

theorem handle_logout_session_fields (r : EmployeeRecord) (now : ℚ) :
    (handle_logout r now).2.login_time = r.login_time ∧
    ((handle_logout r now).2.logout_time = r.logout_time ∨
      ∃ t : ℚ, r.login_time = some (.ok t) ∧ t ≤ now ∧
        (handle_logout r now).2.logout_time = some (.ok now)) := by
  rcases hlt : r.login_time with _ | lts
  · simp [handle_logout, hlt]
  · rcases lts with t | _
    · by_cases hno : now < t
      · simp [handle_logout, hlt, strptime, hno]
      · have hle : t ≤ now := not_lt.mp hno
        rcases hbs : r.break_start with _ | bsts
        · refine ⟨?_, Or.inr ⟨t, rfl, hle, ?_⟩⟩ <;>
            simp [handle_logout, hlt, strptime, hno, hbs, finishLogout]
        · rcases bsts with bs | _
          · rcases hbe : r.break_end with _ | bets
            · refine ⟨?_, Or.inr ⟨t, rfl, hle, ?_⟩⟩ <;>
                simp [handle_logout, hlt, strptime, hno, hbs, hbe, finishLogout]
            · rcases bets with be | _ <;>
                refine ⟨?_, Or.inr ⟨t, rfl, hle, ?_⟩⟩ <;>
                simp [handle_logout, hlt, strptime, hno, hbs, hbe, finishLogout]
          · rcases hbe : r.break_end with _ | bets
            · refine ⟨?_, Or.inr ⟨t, rfl, hle, ?_⟩⟩ <;>
                simp [handle_logout, hlt, strptime, hno, hbs, hbe, finishLogout]
            · rcases bets with be | _ <;>
                refine ⟨?_, Or.inr ⟨t, rfl, hle, ?_⟩⟩ <;>
                simp [handle_logout, hlt, strptime, hno, hbs, hbe, finishLogout]
    · simp [handle_logout, hlt, strptime]

/-- Claim C9: Logout compares the current instant with the parsed
login_time and, whenever the logout instant would precede the login
instant, rejects before performing any write; consequently the ordering
invariant that logout_time is at or after login_time whenever both are
set is preserved by every operation and holds in every record the state
machine produces. -/
theorem logout_guard_and_order_invariant :
    (∀ (r : EmployeeRecord) (now lt : ℚ), r.login_time = some (.ok lt) →
      now < lt →
      handle_logout r now = (.rejected "Logout time cannot be before login time", r)) ∧
    (∀ (r : EmployeeRecord) (now : ℚ), ordInv r →
      ordInv (handle_logout r now).2 ∧ ordInv (render_start_break r now).2 ∧
        ordInv (render_end_break r now).2) ∧
    (∀ (u : String) (now : ℚ) (r : EmployeeRecord),
      handle_login_record none u now = some r → ordInv r) := by
  refine ⟨?_, ?_, ?_⟩
  · intro r now lt h1 h2
    simp [handle_logout, h1, strptime, h2]
  · intro r now hinv
    refine ⟨?_, ?_, ?_⟩
    · obtain ⟨hlogin, hcase⟩ := handle_logout_session_fields r now
      intro lt lo ha hb
      rw [hlogin] at ha
      rcases hcase with hsame | ⟨t, hlt, hle, hnew⟩
      · exact hinv lt lo ha (hsame ▸ hb)
      · rw [hlt] at ha
        rw [hnew] at hb
        have h1 : t = lt := by simpa using ha
        have h2 : now = lo := by simpa using hb
        rw [← h1, ← h2]
        exact hle
    · obtain ⟨h1, h2⟩ := render_start_break_keeps_session r now
      intro lt lo ha hb
      exact hinv lt lo (h1 ▸ ha) (h2 ▸ hb)
    · obtain ⟨h1, h2⟩ := render_end_break_keeps_session r now
      intro lt lo ha hb
      exact hinv lt lo (h1 ▸ ha) (h2 ▸ hb)
  · intro u now r hr
    rw [handle_login_record] at hr
    by_cases hu : u = "admin"
    · rw [if_pos hu] at hr
      exact absurd hr (by simp)
    · rw [if_neg hu] at hr
      injection hr with hr'
      intro lt lo ha hb
      rw [← hr'] at hb
      exact absurd hb (by simp)

/-- Witness for C9: the clock-skew record is rejected unchanged. -/
theorem logout_guard_and_order_invariant_witness :
    handle_logout skewRec 0 =
      (.rejected "Logout time cannot be before login time", skewRec) :=
  logout_guard_and_order_invariant.1 skewRec 0 100 rfl (by norm_num)

/-- Scenario C record: login at 09:00 (instant 32400 in seconds of day),
no break fields. -/
def scenarioC : EmployeeRecord := { name := "e", login_time := some (.ok 32400) }

/-- Claim C8: logging out the Scenario C record at 17:00 (instant 61200)
succeeds; the break_duration cell stays unwritten and therefore displays
the zero value `"00:00"` (which is also the value the status evaluation
uses, `format_duration 0`); total work time is `"08:00"`; and with the
480-minute standard the resulting status is Completed. -/
theorem scenario_c_logout_complete :
    (handle_logout scenarioC 61200).1 = .success ∧
    (handle_logout scenarioC 61200).2.break_duration = none ∧
    displayed_break_duration (handle_logout scenarioC 61200).2 = "00:00" ∧
    format_duration 0 = "00:00" ∧
    (handle_logout scenarioC 61200).2.work_time = some "08:00" ∧
    (handle_logout scenarioC 61200).2.status = some EmployeeStatus.COMPLETED := by
  have hfd0 : format_duration 0 = "00:00" := by
    have harg : ((0 : Nat) : ℚ) * 60 + ((0 : Nat) : ℚ) = (0 : ℚ) := by norm_num
    have := format_duration_mkDisplay 0 0 (by norm_num)
    rw [harg] at this
    rw [this]
    decide
  have harg480 : ((61200 : ℚ) - 32400) / 60 - 0 = ((8 : Nat) : ℚ) * 60 + ((0 : Nat) : ℚ) := by
    norm_num
  have hfd480 : format_duration (((61200 : ℚ) - 32400) / 60 - 0) = "08:00" := by
    rw [harg480, format_duration_mkDisplay 8 0 (by norm_num)]
    decide
  have hlt : ¬((61200 : ℚ) < 32400) := by norm_num
  have hmain : handle_logout scenarioC 61200 =
      (.success, finishLogout { scenarioC with logout_time := some (.ok 61200) }
        32400 61200 0) := by
    simp [handle_logout, scenarioC, strptime, hlt]
  rw [hmain]
  refine ⟨rfl, rfl, ?_, hfd0, ?_, ?_⟩
  · rfl
  · show some (format_duration (((61200 : ℚ) - 32400) / 60 - 0)) = some "08:00"
    rw [hfd480]
  · show some (evaluate_status (format_duration 0)
      (format_duration (((61200 : ℚ) - 32400) / 60 - 0))) = some EmployeeStatus.COMPLETED
    rw [hfd0, hfd480]
    decide

end EmployeeTracker
